import Mathlib

/-!
Verification of the scanner-qr pipeline core against its specification.

Shallow embedding of:
  * `src/detection.py`  — `ChangeDetector` (RegionDiffer state machine);
  * `src/utils.py`      — `RollingHashCache` (FIFO+TTL dedup cache);
  * `src/main.py`       — the content-dedup loop over decoded payloads;
  * `src/decoder.py`    — `_try_decode` / `decode_qr_fast` cascade;
  * `src/extraction.py` — the bounding-box filters of `extract_images`.

Modelling conventions:
  * Python floats are modelled as rationals (`ℚ`); all arithmetic relevant
    to the claims is exact at the concrete inputs used.
  * `time.time()` is impure in the source; stateful methods that read the
    clock take the current time as an explicit argument.
  * External cv2 / zxingcpp / pyzbar library calls are collaborators: they
    are parameters of the embedding (fields of an environment structure),
    with their failure behaviour (Python exceptions) made explicit via
    `Except`.
-/

namespace Scanner

/-! ## `src/detection.py` — ChangeDetector

A frame is modelled as its grayscale intensity grid together with its
dimensions (`cv2.cvtColor BGR2GRAY` is a collaborator applied upstream;
the shape comparison `prev.shape != frame.shape` on 3-channel frames is
equivalent to comparing `(h, w)`).
-/

structure Frame where
  h : Nat
  w : Nat
  data : List Nat
deriving DecidableEq, Repr

def Frame.shape (f : Frame) : Nat × Nat := (f.h, f.w)

/-- One pixel of the binarized absolute difference:
`cv2.threshold(absdiff, 30, 255, THRESH_BINARY)` maps a difference to 255
when it strictly exceeds 30, else 0. -/
def diffPixel (a b : Nat) : Nat :=
  if (if a ≥ b then a - b else b - a) > 30 then 255 else 0

/-- `changed_pct = (np.count_nonzero(thresh) / thresh.size) * 100`.
`thresh.size` is the total pixel count `h * w` of the region. -/
def changedPct (cur prev : Frame) : ℚ :=
  let thresh := List.zipWith diffPixel cur.data prev.data
  ((thresh.countP (fun p => p ≠ 0) : ℚ) / ((cur.h : ℚ) * (cur.w : ℚ))) * 100

structure ChangeDetector where
  prev_frame : Option Frame
  threshold_pct : ℚ
  stable_pct : ℚ
  changing : Bool
  stable_count : Nat
deriving DecidableEq, Repr

/-- `ChangeDetector(threshold_pct=10.0, stable_pct=3.0)` with defaults. -/
def ChangeDetector.init (threshold_pct : ℚ := 10) (stable_pct : ℚ := 3) :
    ChangeDetector :=
  { prev_frame := none, threshold_pct := threshold_pct,
    stable_pct := stable_pct, changing := false, stable_count := 0 }

/-- `ChangeDetector.detect` from `src/detection.py`, returning the
`(changed, stable)` pair together with the updated detector state. -/
def ChangeDetector.detect (d : ChangeDetector) (frame : Frame) :
    (Bool × Bool) × ChangeDetector :=
  match d.prev_frame with
  | none => ((false, false), { d with prev_frame := some frame })
  | some prev =>
    if prev.shape ≠ frame.shape then
      ((false, false), { d with prev_frame := some frame })
    else
      let pct := changedPct frame prev
      let d1 := { d with prev_frame := some frame }
      if pct > d.threshold_pct then
        ((true, false), { d1 with changing := true, stable_count := 0 })
      else if d.changing ∧ pct < d.stable_pct then
        if d.stable_count + 1 ≥ 2 then
          ((false, true), { d1 with changing := false, stable_count := 0 })
        else
          ((false, false), { d1 with stable_count := d.stable_count + 1 })
      else
        ((false, false), d1)

def ChangeDetector.reset (d : ChangeDetector) : ChangeDetector :=
  { d with prev_frame := none, changing := false, stable_count := 0 }

/-! ## `src/utils.py` — RollingHashCache

The `OrderedDict[str, float]` is modelled as an insertion-ordered
association list (front = oldest).  `seen` reads `time.time()` twice in
the source (once in `_evict`, once for the insertion timestamp) within the
same call; both reads are modelled by the single explicit `now` argument.
-/

structure RollingHashCache where
  cache : List (String × ℚ)
  max_entries : Nat
  ttl_s : ℚ
deriving DecidableEq, Repr

def RollingHashCache.init (max_entries : Nat := 500) (ttl_s : ℚ := 3600) :
    RollingHashCache :=
  { cache := [], max_entries := max_entries, ttl_s := ttl_s }

/-- The `while` loop of `RollingHashCache._evict`: pop entries from the
front of insertion order while their timestamp is older than
`cutoff = now - ttl`, stopping at the first fresh entry. -/
def evictExpired (ttl now : ℚ) : List (String × ℚ) → List (String × ℚ)
  | [] => []
  | (k, ts) :: rest =>
    if ts < now - ttl then evictExpired ttl now rest else (k, ts) :: rest

/-- `RollingHashCache.seen` from `src/utils.py`: evict expired entries,
then answer membership; on a miss insert `(h, now)` at the back and, if
the size now exceeds `max_entries`, pop the single oldest entry
(`popitem(last=False)`). -/
def RollingHashCache.seen (c : RollingHashCache) (h : String) (now : ℚ) :
    Bool × RollingHashCache :=
  let evicted := evictExpired c.ttl_s now c.cache
  if evicted.any (fun e => e.1 = h) then
    (true, { c with cache := evicted })
  else
    let inserted := evicted ++ [(h, now)]
    let bounded :=
      if inserted.length > c.max_entries then inserted.tail else inserted
    (false, { c with cache := bounded })

/-- The keys currently present in the cache, in insertion order. -/
def RollingHashCache.keys (c : RollingHashCache) : List String :=
  c.cache.map Prod.fst

/-! ## `src/main.py` — content dedup over decoded payloads

The orchestrator keeps `seen_content: set[str]` and, for each decoded
payload, skips it when already present, otherwise adds it and fires the
outputs.  `processPayloads seen ps` runs that per-payload logic over the
run's decoded payloads in order, returning the payloads actually
dispatched (in order) together with the final seen-set.  The set is
modelled as a list with membership as the set-membership test.
-/

def processPayloads (seen : List String) :
    List String → List String × List String
  | [] => ([], seen)
  | p :: rest =>
    if p ∈ seen then processPayloads seen rest
    else
      let r := processPayloads (p :: seen) rest
      (p :: r.1, r.2)

/-! ## `src/decoder.py` — decode cascade

The decoder libraries (zxingcpp, pyzbar, OpenCV) and the cv2 image
operations are external collaborators, so they are parameters of the
embedding.  A Python exception raised by a collaborator is an
`Except.error`; `PyExc.cvError` is a `cv2.error` (the only exception class
the OpenCV strategy catches), `PyExc.otherExc` any other exception class.
In the source, `zxingcpp.read_barcodes` is wrapped in
`try/except Exception`, `_qr_detector.detectAndDecodeMulti` in
`try/except cv2.error`, and each pyzbar result's `r.data.decode(...)` in
`try/except Exception` — but the `pyzbar_decode(...)` calls themselves are
not wrapped at all.  The pure pixel transformations (`filter2D`,
`resize`, `threshold` with Otsu, `cvtColor`) are total collaborators.
-/

inductive PyExc where
  | cvError
  | otherExc
deriving DecidableEq, Repr

structure DecodeEnv (Img Gray : Type) where
  toGray : Img → Gray
  sharpen : Gray → Gray
  resize : Gray → Nat → Gray
  otsu : Gray → Gray
  zxing : Gray → Except PyExc (List String)
  pyzbar : Gray → Except PyExc (List (Except Unit String))
  opencvMulti : Gray → Except PyExc (Bool × List String)

/-- The per-result loop of the pyzbar strategy: each `r.data.decode(...)`
is individually wrapped, a failing result is skipped, and only non-empty
texts are kept. -/
def pyzbarTexts (results : List (Except Unit String)) : List String :=
  results.filterMap (fun r =>
    match r with
    | .ok t => if t = "" then none else some t
    | .error _ => none)

/-- One zxingcpp block of `_try_decode`: the `read_barcodes` call is
wrapped in `try/except Exception`, so an exception falls through to the
next stage; a non-empty result list is filtered to non-empty texts and
returned only if something survives. -/
def zxingStage (fallthrough : Except PyExc (List String))
    (res : Except PyExc (List String)) : Except PyExc (List String) :=
  match res with
  | .error _ => fallthrough
  | .ok results =>
    if results.isEmpty then fallthrough
    else
      let decoded := results.filter (fun t => t ≠ "")
      if decoded.isEmpty then fallthrough else .ok decoded

/-- One pyzbar block of `_try_decode`: the `pyzbar_decode` call is NOT
wrapped, so an exception raised by it propagates (`.error e`); otherwise
the per-result texts are collected and returned if non-empty. -/
def pyzbarStage (fallthrough : Except PyExc (List String))
    (res : Except PyExc (List (Except Unit String))) :
    Except PyExc (List String) :=
  match res with
  | .error e => .error e
  | .ok results =>
    if results.isEmpty then fallthrough
    else
      let decoded := pyzbarTexts results
      if decoded.isEmpty then fallthrough else .ok decoded

/-- The OpenCV block of `_try_decode`: `detectAndDecodeMulti` is wrapped
in `try/except cv2.error` only, so a `cv2.error` falls through but any
other exception propagates; on `retval` true with a non-empty info tuple
the filtered list is returned even if the filter leaves it empty. -/
def opencvStage (fallthrough : Except PyExc (List String))
    (res : Except PyExc (Bool × List String)) :
    Except PyExc (List String) :=
  match res with
  | .error .cvError => fallthrough
  | .error .otherExc => .error .otherExc
  | .ok (retval, decoded_info) =>
    if retval ∧ ¬decoded_info.isEmpty then
      .ok (decoded_info.filter (fun d => d ≠ ""))
    else fallthrough

/-- `_try_decode` from `src/decoder.py`: the sequential strategy chain
zxingcpp → pyzbar → OpenCV → Otsu-threshold retry of zxingcpp and pyzbar,
each stage receiving the rest of the chain as its fallthrough, ending in
`return []`. -/
def tryDecode {Img Gray : Type} (env : DecodeEnv Img Gray) (gray : Gray) :
    Except PyExc (List String) :=
  let thresh := env.otsu gray
  zxingStage
    (pyzbarStage
      (opencvStage
        (zxingStage
          (pyzbarStage (.ok []) (env.pyzbar thresh))
          (env.zxing thresh))
        (env.opencvMulti gray))
      (env.pyzbar gray))
    (env.zxing gray)

/-- `decode_qr_fast` from `src/decoder.py`: grayscale, sharpen, try at
native scale; on an empty result upscale the pre-sharpen grayscale 2x,
re-sharpen and retry; then the same at 3x; empty when all fail.  An
exception escaping `_try_decode` propagates. -/
def decode_qr_fast {Img Gray : Type} (env : DecodeEnv Img Gray)
    (frame : Img) : Except PyExc (List String) :=
  let gray := env.toGray frame
  let sharpened := env.sharpen gray
  match tryDecode env sharpened with
  | .error e => .error e
  | .ok result =>
    if ¬result.isEmpty then .ok result
    else
      let up2 := env.sharpen (env.resize gray 2)
      match tryDecode env up2 with
      | .error e => .error e
      | .ok result2 =>
        if ¬result2.isEmpty then .ok result2
        else
          let up3 := env.sharpen (env.resize gray 3)
          match tryDecode env up3 with
          | .error e => .error e
          | .ok result3 => if ¬result3.isEmpty then .ok result3 else .ok []

/-- Modelled from the spec's wording of the cascade (§4.2): in strict
order and short-circuiting on the first non-empty result, run the
strategy chain on the sharpened grayscale at native scale, then on the
2x-upscaled (from the pre-sharpen grayscale) re-sharpened image, then at
3x, returning empty only when all three scales fail.  Stated for
comparison with `decode_qr_fast`. -/
def cascadeSpecOrder {Img Gray : Type} (env : DecodeEnv Img Gray)
    (frame : Img) : Except PyExc (List String) := do
  let gray := env.toGray frame
  let r1 ← tryDecode env (env.sharpen gray)
  if r1 ≠ [] then return r1
  let r2 ← tryDecode env (env.sharpen (env.resize gray 2))
  if r2 ≠ [] then return r2
  let r3 ← tryDecode env (env.sharpen (env.resize gray 3))
  if r3 ≠ [] then return r3
  return []

/-! ## `src/extraction.py` — bounding-box filters of `extract_images`

Contour detection (`Canny`, `dilate`, `findContours`, `boundingRect`) is a
cv2 collaborator producing candidate boxes; the algorithmic content is the
per-box filter chain, embedded here over the candidate list. -/

structure Box where
  x : Nat
  y : Nat
  w : Nat
  h : Nat
deriving DecidableEq, Repr

/-- The three filters of the per-contour loop in `extract_images`:
size (`w < min_w or h < min_h`), near-full-frame background
(`w > frame_w * 0.95 and h > frame_h * 0.95`), and aspect ratio
(`aspect > 4.0 or aspect < 0.25` with `aspect = w / h`). -/
def keepBox (frame_w frame_h min_w min_h : Nat) (b : Box) : Bool :=
  if b.w < min_w ∨ b.h < min_h then false
  else if (b.w : ℚ) > (frame_w : ℚ) * (95 / 100) ∧
          (b.h : ℚ) > (frame_h : ℚ) * (95 / 100) then false
  else
    let aspect : ℚ := (b.w : ℚ) / (b.h : ℚ)
    if aspect > 4 ∨ aspect < 1 / 4 then false
    else true

/-- The filtering stage of `extract_images` over the candidate boxes
produced by the contour collaborator (defaults `min_w = min_h = 80`). -/
def extract_images (frame_w frame_h : Nat) (boxes : List Box)
    (min_w : Nat := 80) (min_h : Nat := 80) : List Box :=
  boxes.filter (keepBox frame_w frame_h min_w min_h)

/-- The spec's three bubble-extraction filters (§4.5), with the
background filter in the strict form the code implements: keep a box iff
it is at least `min_w` wide and `min_h` tall, does not cover strictly
more than 95% of both frame dimensions, and has width/height aspect
ratio within `[0.25, 4.0]`. -/
def specFilters (frame_w frame_h min_w min_h : Nat) (b : Box) : Prop :=
  (min_w ≤ b.w ∧ min_h ≤ b.h) ∧
  ¬((frame_w : ℚ) * (95 / 100) < (b.w : ℚ) ∧
    (frame_h : ℚ) * (95 / 100) < (b.h : ℚ)) ∧
  (1 / 4 ≤ (b.w : ℚ) / (b.h : ℚ) ∧ (b.w : ℚ) / (b.h : ℚ) ≤ 4)

/-- A collaborator environment in which every decoder finds nothing and
no library call raises. -/
def benignEnv : DecodeEnv Unit Unit :=
  { toGray := id, sharpen := id, resize := fun g _ => g, otsu := id,
    zxing := fun _ => .ok [], pyzbar := fun _ => .ok [],
    opencvMulti := fun _ => .ok (false, []) }

/-- Like `benignEnv`, except the `pyzbar_decode` library call itself
raises — a decoder-internal failure of the pyzbar strategy. -/
def pyzbarRaisingEnv : DecodeEnv Unit Unit :=
  { benignEnv with pyzbar := fun _ => .error .otherExc }

/-! ## ChangeDetector theorems -/

/-- C1: with `threshold_pct = 10.0` (default) and `stable_pct = 3.0`, from
any state with `is_changing = true` and `consecutive_stable_count = 0`,
two consecutive frames whose changed-pixel percentage is below 3% yield
`(false, false)` then `(false, true)`, and the `(false, true)` is
edge-triggered: a third equally quiet frame yields `(false, false)` with
`is_changing` now false. -/
theorem detect_stability_edge (d : ChangeDetector) (p f1 f2 f3 : Frame)
    (hth : d.threshold_pct = 10) (hst : d.stable_pct = 3)
    (hch : d.changing = true) (hc0 : d.stable_count = 0)
    (hp : d.prev_frame = some p)
    (hs1 : p.shape = f1.shape) (hs2 : f1.shape = f2.shape)
    (hs3 : f2.shape = f3.shape)
    (h1 : changedPct f1 p < 3) (h2 : changedPct f2 f1 < 3)
    (h3 : changedPct f3 f2 < 3) :
    (d.detect f1).1 = (false, false) ∧
    ((d.detect f1).2.detect f2).1 = (false, true) ∧
    (((d.detect f1).2.detect f2).2.detect f3).1 = (false, false) ∧
    (((d.detect f1).2.detect f2).2.detect f3).2.changing = false := by
  obtain ⟨pf, tp, sp, ch, sc⟩ := d
  dsimp only at hth hst hch hc0 hp
  subst hth hst hch hc0 hp
  have hn1 : ¬ changedPct f1 p > (10 : ℚ) := by push_neg; linarith
  have hn2 : ¬ changedPct f2 f1 > (10 : ℚ) := by push_neg; linarith
  have hn3 : ¬ changedPct f3 f2 > (10 : ℚ) := by push_neg; linarith
  simp [ChangeDetector.detect, hs1, hs2, hs3, hn1, hn2, hn3, h1, h2, h3]

/-- C6: whenever a seeded, shape-matching comparison's changed percentage
exceeds `threshold_pct`, `detect` sets `is_changing`, zeroes
`consecutive_stable_count` and returns `(true, false)`, whatever the rest
of the state was. -/
theorem detect_changed_precedence (d : ChangeDetector) (p f : Frame)
    (hp : d.prev_frame = some p) (hs : p.shape = f.shape)
    (hpct : changedPct f p > d.threshold_pct) :
    d.detect f = ((true, false),
      { d with prev_frame := some f, changing := true,
               stable_count := 0 }) := by
  simp [ChangeDetector.detect, hp, hs, hpct]

/-- C7: on an unseeded comparison (no stored previous frame, or a stored
frame of different dimensions), `detect` stores the frame and returns
`(false, false)`. -/
theorem detect_unseeded (d : ChangeDetector) (f : Frame)
    (h : d.prev_frame = none ∨
         ∃ p, d.prev_frame = some p ∧ p.shape ≠ f.shape) :
    (d.detect f).1 = (false, false) ∧
    (d.detect f).2.prev_frame = some f := by
  rcases h with h | ⟨p, hp, hs⟩
  · simp [ChangeDetector.detect, h]
  · simp [ChangeDetector.detect, hp, hs]

/-- C10: a dimension-mismatch call replaces only the stored previous
frame — `is_changing` and `consecutive_stable_count` keep their prior
values — and only `reset` clears them. -/
theorem detect_resize_preserves_episode (d : ChangeDetector) (p f : Frame)
    (hp : d.prev_frame = some p) (hs : p.shape ≠ f.shape) :
    (d.detect f).2 = { d with prev_frame := some f } ∧
    (d.detect f).2.changing = d.changing ∧
    (d.detect f).2.stable_count = d.stable_count ∧
    d.reset.changing = false ∧ d.reset.stable_count = 0 := by
  simp [ChangeDetector.detect, ChangeDetector.reset, hp, hs]

/-- Witness for C1 at a concrete changing-state detector fed three
identical 1x1 quiet frames. -/
theorem detect_stability_edge_ex :
    (((⟨some ⟨1, 1, [0]⟩, 10, 3, true, 0⟩ : ChangeDetector).detect
        ⟨1, 1, [0]⟩).1 = (false, false)) ∧
    ((((⟨some ⟨1, 1, [0]⟩, 10, 3, true, 0⟩ : ChangeDetector).detect
        ⟨1, 1, [0]⟩).2.detect ⟨1, 1, [0]⟩).1 = (false, true)) ∧
    (((((⟨some ⟨1, 1, [0]⟩, 10, 3, true, 0⟩ : ChangeDetector).detect
        ⟨1, 1, [0]⟩).2.detect ⟨1, 1, [0]⟩).2.detect ⟨1, 1, [0]⟩).1 =
      (false, false)) ∧
    (((((⟨some ⟨1, 1, [0]⟩, 10, 3, true, 0⟩ : ChangeDetector).detect
        ⟨1, 1, [0]⟩).2.detect ⟨1, 1, [0]⟩).2.detect ⟨1, 1, [0]⟩).2.changing =
      false) :=
  detect_stability_edge _ ⟨1, 1, [0]⟩ _ _ _ rfl rfl rfl rfl rfl rfl rfl rfl
    (by norm_num [changedPct, diffPixel]) (by norm_num [changedPct, diffPixel])
    (by norm_num [changedPct, diffPixel])

/-- Witness for C6 at a concrete detector: a 1x1 frame flipping from
intensity 0 to 255 gives a 100% change. -/
theorem detect_changed_precedence_ex :
    (⟨some ⟨1, 1, [0]⟩, 10, 3, false, 1⟩ : ChangeDetector).detect
        ⟨1, 1, [255]⟩ =
      ((true, false), ⟨some ⟨1, 1, [255]⟩, 10, 3, true, 0⟩) :=
  detect_changed_precedence _ ⟨1, 1, [0]⟩ _ rfl rfl
    (by norm_num [changedPct, diffPixel])

/-- Witness for C7 on the freshly initialized detector. -/
theorem detect_unseeded_ex :
    ((ChangeDetector.init.detect ⟨1, 1, [0]⟩).1 = (false, false)) ∧
    (ChangeDetector.init.detect ⟨1, 1, [0]⟩).2.prev_frame =
      some ⟨1, 1, [0]⟩ :=
  detect_unseeded _ _ (Or.inl rfl)

/-! ## RollingHashCache theorems -/

/-- `_evict` only removes entries from the front: the surviving cache is
a sublist of the original. -/
theorem evictExpired_sublist (ttl now : ℚ) (l : List (String × ℚ)) :
    (evictExpired ttl now l).Sublist l := by
  induction l with
  | nil => simp [evictExpired]
  | cons e rest ih =>
    obtain ⟨k, ts⟩ := e
    unfold evictExpired
    split
    · exact ih.trans (List.sublist_cons_self _ _)
    · exact List.Sublist.refl _

/-- If the cache's timestamps are nondecreasing in insertion order, its
keys are distinct, and the entry `(h, t)` is expired at time `now`, then
`_evict` removes `h` (together with everything inserted before it). -/
theorem evictExpired_removes_expired (ttl now : ℚ)
    (l : List (String × ℚ)) (h : String) (t : ℚ)
    (hsort : l.Pairwise (fun a b => a.2 ≤ b.2))
    (hnodup : (l.map Prod.fst).Nodup)
    (hmem : (h, t) ∈ l) (hexp : t < now - ttl) :
    h ∉ (evictExpired ttl now l).map Prod.fst := by
  induction l with
  | nil => simp at hmem
  | cons e rest ih =>
    obtain ⟨k, ts⟩ := e
    rw [List.pairwise_cons] at hsort
    rw [List.map_cons, List.nodup_cons] at hnodup
    rcases List.mem_cons.mp hmem with heq | hmem2
    · obtain ⟨rfl, rfl⟩ := Prod.mk.injEq .. ▸ heq
      unfold evictExpired
      rw [if_pos hexp]
      intro hin
      exact hnodup.1
        (((evictExpired_sublist ttl now rest).map Prod.fst).mem hin)
    · have hts : ts ≤ t := hsort.1 (h, t) hmem2
      unfold evictExpired
      rw [if_pos (lt_of_le_of_lt hts hexp)]
      exact ih hsort.2 hnodup.2 hmem2

/-- C4: with `max_entries = 2` and a TTL large enough that nothing
expires, inserting "a", "b", "c" in order returns `false` each time and
leaves exactly the keys ["b", "c"]; a fourth call `seen "a"` then returns
`false` again (its entry was evicted as oldest), re-inserts "a" and
evicts "b", leaving ["c", "a"]. -/
theorem cache_fifo_eviction (t1 t2 t3 t4 ttl : ℚ)
    (h12 : t1 ≤ t2) (h23 : t2 ≤ t3) (h34 : t3 ≤ t4)
    (httl : t4 - ttl ≤ t1) :
    let c0 : RollingHashCache :=
      { cache := [], max_entries := 2, ttl_s := ttl }
    let s1 := c0.seen "a" t1
    let s2 := s1.2.seen "b" t2
    let s3 := s2.2.seen "c" t3
    let s4 := s3.2.seen "a" t4
    s1.1 = false ∧ s2.1 = false ∧ s3.1 = false ∧
    s3.2.keys = ["b", "c"] ∧
    s4.1 = false ∧ s4.2.keys = ["c", "a"] := by
  have hn2 : ¬ t1 < t2 - ttl := by push_neg; linarith
  have hn3 : ¬ t1 < t3 - ttl := by push_neg; linarith
  have hn4 : ¬ t2 < t4 - ttl := by push_neg; linarith
  simp [RollingHashCache.seen, evictExpired, RollingHashCache.keys,
    hn2, hn3, hn4]

/-- Witness for C4 at concrete times 1, 2, 3, 4 and TTL 1000. -/
theorem cache_fifo_eviction_ex :
    let c0 : RollingHashCache :=
      { cache := [], max_entries := 2, ttl_s := 1000 }
    let s1 := c0.seen "a" 1
    let s2 := s1.2.seen "b" 2
    let s3 := s2.2.seen "c" 3
    let s4 := s3.2.seen "a" 4
    s1.1 = false ∧ s2.1 = false ∧ s3.1 = false ∧
    s3.2.keys = ["b", "c"] ∧
    s4.1 = false ∧ s4.2.keys = ["c", "a"] :=
  cache_fifo_eviction 1 2 3 4 1000 (by norm_num) (by norm_num)
    (by norm_num) (by norm_num)

/-- C8: an entry inserted at time `t` is treated as unseen by a `seen`
call made later than `t + ttl_s` — it is evicted by TTL expiry, `seen`
returns `false` and re-inserts the hash — however far the cache is from
its entry cap.  The hypotheses on the stored cache (timestamps
nondecreasing in insertion order, distinct keys) are invariants of every
cache built by `seen` under a monotone clock. -/
theorem cache_ttl_expiry (c : RollingHashCache) (h : String) (t now : ℚ)
    (hsort : c.cache.Pairwise (fun a b => a.2 ≤ b.2))
    (hnodup : (c.cache.map Prod.fst).Nodup)
    (hmem : (h, t) ∈ c.cache)
    (hexp : t + c.ttl_s < now)
    (hmax : 0 < c.max_entries) :
    (c.seen h now).1 = false ∧ (h, now) ∈ (c.seen h now).2.cache := by
  have hexp2 : t < now - c.ttl_s := by linarith
  have hgone := evictExpired_removes_expired c.ttl_s now c.cache h t
    hsort hnodup hmem hexp2
  have hany : (evictExpired c.ttl_s now c.cache).any
      (fun e => e.1 = h) = false := by
    rw [List.any_eq_false]
    intro e he
    simp only [decide_eq_true_eq]
    intro heq
    exact hgone (heq ▸ List.mem_map_of_mem Prod.fst he)
  unfold RollingHashCache.seen
  simp only [hany, Bool.false_eq_true, if_false]
  refine ⟨trivial, ?_⟩
  cases hev : evictExpired c.ttl_s now c.cache with
  | nil =>
    simp only [hev, List.nil_append, List.length_singleton]
    rw [if_neg (by omega)]
    exact List.mem_singleton_self _
  | cons e es =>
    simp only [hev, List.cons_append]
    split
    · exact List.mem_append_right _ (List.mem_singleton_self _)
    · exact List.mem_cons_of_mem _
        (List.mem_append_right _ (List.mem_singleton_self _))

/-- Witness for C8: a single entry inserted at time 0 under a TTL of 10,
queried at time 11. -/
theorem cache_ttl_expiry_ex :
    (({ cache := [("a", 0)], max_entries := 5, ttl_s := 10 } :
        RollingHashCache).seen "a" 11).1 = false ∧
    ("a", (11 : ℚ)) ∈
      (({ cache := [("a", 0)], max_entries := 5, ttl_s := 10 } :
        RollingHashCache).seen "a" 11).2.cache :=
  cache_ttl_expiry _ "a" 0 11 (by simp) (by simp) (by simp)
    (by norm_num) (by norm_num)

/-- Witness for C10 on a concrete mid-episode detector hit by a frame of
different dimensions. -/
theorem detect_resize_preserves_episode_ex :
    (((⟨some ⟨1, 1, [0]⟩, 10, 3, true, 1⟩ : ChangeDetector).detect
        ⟨2, 2, [0, 0, 0, 0]⟩).2 =
      (⟨some ⟨2, 2, [0, 0, 0, 0]⟩, 10, 3, true, 1⟩ : ChangeDetector)) ∧
    (((⟨some ⟨1, 1, [0]⟩, 10, 3, true, 1⟩ : ChangeDetector).detect
        ⟨2, 2, [0, 0, 0, 0]⟩).2.changing =
      (⟨some ⟨1, 1, [0]⟩, 10, 3, true, 1⟩ : ChangeDetector).changing) ∧
    (((⟨some ⟨1, 1, [0]⟩, 10, 3, true, 1⟩ : ChangeDetector).detect
        ⟨2, 2, [0, 0, 0, 0]⟩).2.stable_count =
      (⟨some ⟨1, 1, [0]⟩, 10, 3, true, 1⟩ : ChangeDetector).stable_count) ∧
    ((⟨some ⟨1, 1, [0]⟩, 10, 3, true, 1⟩ : ChangeDetector).reset.changing =
      false) ∧
    (⟨some ⟨1, 1, [0]⟩, 10, 3, true, 1⟩ : ChangeDetector).reset.stable_count =
      0 :=
  detect_resize_preserves_episode _ ⟨1, 1, [0]⟩ _ rfl (by decide)

/-! ## Content-dedup theorem -/

/-- C5: over any run, from any prior seen-set, the dispatched payloads
are exactly the payloads whose first observation occurs in the run
(each dispatched exactly once), and the seen-set only ever grows: the
final set is the union of the run's payloads with the prior set. -/
theorem dedup_fires_once (seen ps : List String) :
    (processPayloads seen ps).1.Nodup ∧
    (∀ p, p ∈ (processPayloads seen ps).1 ↔ p ∈ ps ∧ p ∉ seen) ∧
    (∀ p, p ∈ (processPayloads seen ps).2 ↔ p ∈ ps ∨ p ∈ seen) := by
  induction ps generalizing seen with
  | nil => simp [processPayloads]
  | cons q rest ih =>
    by_cases hq : q ∈ seen
    · obtain ⟨h1, h2, h3⟩ := ih seen
      rw [show processPayloads seen (q :: rest) = processPayloads seen rest
            from by simp [processPayloads, hq]]
      refine ⟨h1, fun p => ?_, fun p => ?_⟩
      · rw [h2 p, List.mem_cons]
        constructor
        · rintro ⟨hp, hns⟩; exact ⟨Or.inr hp, hns⟩
        · rintro ⟨hp | hp, hns⟩
          · exact absurd (hp ▸ hq) hns
          · exact ⟨hp, hns⟩
      · rw [h3 p, List.mem_cons]
        constructor
        · rintro (hp | hp)
          · exact Or.inl (Or.inr hp)
          · exact Or.inr hp
        · rintro ((rfl | hp) | hp)
          · exact Or.inr hq
          · exact Or.inl hp
          · exact Or.inr hp
    · obtain ⟨h1, h2, h3⟩ := ih (q :: seen)
      rw [show processPayloads seen (q :: rest) =
            ((q :: (processPayloads (q :: seen) rest).1),
             (processPayloads (q :: seen) rest).2)
            from by simp [processPayloads, hq]]
      refine ⟨?_, fun p => ?_, fun p => ?_⟩
      · exact List.nodup_cons.mpr
          ⟨fun hc => ((h2 q).mp hc).2 (List.mem_cons_self q seen), h1⟩
      · simp only [List.mem_cons, h2 p, List.mem_cons, not_or] at *
        constructor
        · rintro (rfl | ⟨hp, hne, hns⟩)
          · exact ⟨Or.inl rfl, hq⟩
          · exact ⟨Or.inr hp, hns⟩
        · rintro ⟨rfl | hp, hns⟩
          · exact Or.inl rfl
          · by_cases hpq : p = q
            · exact Or.inl hpq
            · exact Or.inr ⟨hp, hpq, hns⟩
      · rw [h3 p]
        simp only [List.mem_cons]
        tauto

/-! ## Decode-cascade theorems -/

/-- `_try_decode` cannot raise when the pyzbar library call never raises
and the OpenCV detector fails only with `cv2.error` (the class it
catches): failures of the zxingcpp strategy, of individual pyzbar
results, and `cv2.error` failures of the OpenCV strategy are all
swallowed. -/
theorem zxingStage_ok (f : Except PyExc (List String))
    (res : Except PyExc (List String)) (hf : ∃ r, f = .ok r) :
    ∃ r, zxingStage f res = .ok r := by
  obtain ⟨r, rfl⟩ := hf
  unfold zxingStage
  cases res with
  | error e => exact ⟨_, rfl⟩
  | ok results => dsimp only; split_ifs <;> exact ⟨_, rfl⟩

theorem pyzbarStage_ok (f : Except PyExc (List String))
    (res : Except PyExc (List (Except Unit String)))
    (hf : ∃ r, f = .ok r) (hres : ∃ rs, res = .ok rs) :
    ∃ r, pyzbarStage f res = .ok r := by
  obtain ⟨r, rfl⟩ := hf
  obtain ⟨rs, rfl⟩ := hres
  unfold pyzbarStage
  dsimp only
  split_ifs <;> exact ⟨_, rfl⟩

theorem opencvStage_ok (f : Except PyExc (List String))
    (res : Except PyExc (Bool × List String)) (hf : ∃ r, f = .ok r)
    (hres : res ≠ .error .otherExc) :
    ∃ r, opencvStage f res = .ok r := by
  obtain ⟨r, rfl⟩ := hf
  unfold opencvStage
  cases res with
  | error e => cases e with
    | cvError => exact ⟨_, rfl⟩
    | otherExc => exact absurd rfl hres
  | ok pr =>
    obtain ⟨retval, info⟩ := pr
    dsimp only
    split_ifs <;> exact ⟨_, rfl⟩

theorem tryDecode_total {Img Gray : Type} (env : DecodeEnv Img Gray)
    (g : Gray)
    (hpy : ∀ x, ∃ rs, env.pyzbar x = .ok rs)
    (hcv : ∀ x, env.opencvMulti x ≠ .error .otherExc) :
    ∃ r, tryDecode env g = .ok r := by
  unfold tryDecode
  exact zxingStage_ok _ _
    (pyzbarStage_ok _ _
      (opencvStage_ok _ _
        (zxingStage_ok _ _
          (pyzbarStage_ok _ _ ⟨[], rfl⟩ (hpy _)))
        (hcv g))
      (hpy g))

/-- C2 (amended): `decode_qr_fast` returns a (possibly empty) list of
strings and never raises, provided the pyzbar library call itself never
raises and the OpenCV detector fails only with `cv2.error`; the
zxingcpp, per-result-pyzbar and `cv2.error`-OpenCV failure modes are
caught inside the cascade. -/
theorem decode_qr_fast_total {Img Gray : Type} (env : DecodeEnv Img Gray)
    (frame : Img)
    (hpy : ∀ x, ∃ rs, env.pyzbar x = .ok rs)
    (hcv : ∀ x, env.opencvMulti x ≠ .error .otherExc) :
    ∃ r, decode_qr_fast env frame = .ok r := by
  obtain ⟨r1, h1⟩ :=
    tryDecode_total env (env.sharpen (env.toGray frame)) hpy hcv
  obtain ⟨r2, h2⟩ :=
    tryDecode_total env
      (env.sharpen (env.resize (env.toGray frame) 2)) hpy hcv
  obtain ⟨r3, h3⟩ :=
    tryDecode_total env
      (env.sharpen (env.resize (env.toGray frame) 3)) hpy hcv
  unfold decode_qr_fast
  dsimp only
  rw [h1, h2, h3]
  dsimp only
  split_ifs <;> exact ⟨_, rfl⟩

/-- C2 counterexample: with collaborators in which the `pyzbar_decode`
library call raises (a failure internal to the pyzbar strategy) and every
other decoder quietly finds nothing, the exception escapes
`decode_qr_fast` instead of being treated as "no result from that
strategy": the claim's "never raises" does not hold of the code. -/
theorem decode_qr_fast_raises_ex :
    decode_qr_fast pyzbarRaisingEnv () = .error .otherExc := rfl

/-- Witness for C2 (amended) on the benign concrete environment. -/
theorem decode_qr_fast_total_ex :
    ∃ r, decode_qr_fast benignEnv () = .ok r :=
  decode_qr_fast_total benignEnv ()
    (fun _ => ⟨[], rfl⟩) (fun _ h => by simp [benignEnv] at h)

/-- C3: `decode_qr_fast` coincides with the spec's strict-order,
short-circuiting three-scale cascade `cascadeSpecOrder`: the strategy
chain runs on the sharpened grayscale at native scale first; only on an
empty result is the pre-sharpen grayscale upscaled 2x, re-sharpened and
retried; only then 3x; the result is empty only when all three scales
yield nothing, and a payload decodable only after enlargement is
returned only via the 2x or 3x attempt. -/
theorem decode_qr_fast_eq_spec {Img Gray : Type} (env : DecodeEnv Img Gray)
    (frame : Img) :
    decode_qr_fast env frame = cascadeSpecOrder env frame := by
  unfold decode_qr_fast cascadeSpecOrder
  simp only [bind, Except.bind, pure, Except.pure]
  cases tryDecode env (env.sharpen (env.toGray frame)) with
  | error e => rfl
  | ok r1 =>
    cases r1 with
    | cons a l => rfl
    | nil =>
      cases tryDecode env (env.sharpen (env.resize (env.toGray frame) 2)) with
      | error e => rfl
      | ok r2 =>
        cases r2 with
        | cons a l => rfl
        | nil =>
          cases tryDecode env
              (env.sharpen (env.resize (env.toGray frame) 3)) with
          | error e => rfl
          | ok r3 => cases r3 <;> rfl

/-! ## Bubble-extraction theorems -/

/-- The per-box filter chain of `extract_images` agrees with the spec's
three filters in their strict form. -/
theorem keepBox_iff_specFilters (fw fh : Nat) (b : Box) :
    keepBox fw fh 80 80 b = true ↔ specFilters fw fh 80 80 b := by
  unfold keepBox specFilters
  dsimp only
  split_ifs with h1 h2 h3
  · simp only [Bool.false_eq_true, false_iff]
    rintro ⟨⟨ha, hb⟩, -, -⟩
    rcases h1 with h1 | h1 <;> omega
  · simp only [Bool.false_eq_true, false_iff]
    rintro ⟨-, hnb, -⟩
    exact hnb h2
  · simp only [Bool.false_eq_true, false_iff]
    rintro ⟨-, -, hlo, hhi⟩
    rcases h3 with h3 | h3 <;> linarith
  · simp only [true_iff]
    push_neg at h1 h3
    exact ⟨⟨h1.1, h1.2⟩, h2, h3.2, h3.1⟩

/-- C9 counterexample: a 95x95 box in a 100x100 frame covers at least
95% of both frame dimensions — which the claim says is discarded — yet
`extract_images` keeps it: the code's background filter compares with a
strict `>`.  (In the source's float arithmetic `100 * 0.95` is exactly
`95.0`, so the strict comparison `95 > 95.0` is false there as well.) -/
theorem extract_images_keeps_exact95 :
    extract_images 100 100 [⟨0, 0, 95, 95⟩] = [⟨0, 0, 95, 95⟩] ∧
    (95 : ℚ) ≥ (100 : ℚ) * (95 / 100) ∧ (95 : ℚ) ≥ (100 : ℚ) * (95 / 100) := by
  refine ⟨?_, by norm_num, by norm_num⟩
  norm_num [extract_images, keepBox, List.filter]

/-- C9 (amended): `extract_images` keeps a candidate box iff it passes
all three filters, where the background filter discards a box strictly
wider than 95% of the frame width and strictly taller than 95% of the
frame height (at exactly 95% of both a box is kept); in particular a
96%-of-both-dimensions box and an aspect-5.0 box are discarded while a
100x120 box is kept. -/
theorem extract_images_filters (frame_w frame_h : Nat) (boxes : List Box)
    (b : Box) :
    (b ∈ extract_images frame_w frame_h boxes ↔
      b ∈ boxes ∧ specFilters frame_w frame_h 80 80 b) ∧
    extract_images 100 100 [⟨0, 0, 96, 96⟩] = [] ∧
    extract_images 1000 1000 [⟨0, 0, 400, 80⟩] = [] ∧
    extract_images 1000 1000 [⟨0, 0, 100, 120⟩] = [⟨0, 0, 100, 120⟩] := by
  refine ⟨?_, ?_, ?_, ?_⟩
  · rw [extract_images, List.mem_filter]
    exact and_congr_right fun _ => keepBox_iff_specFilters _ _ _
  · norm_num [extract_images, keepBox, List.filter]
  · norm_num [extract_images, keepBox, List.filter]
  · norm_num [extract_images, keepBox, List.filter]

end Scanner
